import Mathlib

/-!
Verification of the metric contract and aggregation engine of the
repository-quality evaluator (src/461-project/src/busfactor.ts and
src/461-project/src/run.ts), shallowly embedded in Lean.

Scores and latencies are JavaScript numbers; they are embedded as rationals
(all constants of the program — 0.40, 0.25 and so on — are exact, and every
concrete computation in the claims stays well inside the range where IEEE
doubles behave like exact arithmetic on these values).  Commit counts are
naturals.  Wall-clock readings are nondeterministic, so the elapsed time
`(endTime - startTime) / 1000` enters the embedding as an explicit parameter,
nonnegative for a monotone clock (`performance.now`).
-/

namespace Spec2Proof

/-- A contributor as mapped from the DataSource response in
`calculateBusFactor` (busfactor.ts lines 28-31): `{login, commits}`, where
`commits` is the GitHub `contributions` count. -/
structure Contributor where
  login : String
  commits : ℕ
deriving DecidableEq

/-- The result shape of `calculateBusFactor` (busfactor.ts lines 7-10,
`interface metricResult`). -/
structure metricResult where
  busfactor : ℚ
  busfactory_latency : ℚ
deriving DecidableEq

/-- `contributors.reduce((total, c) => total + c.commits, 0)`
(busfactor.ts line 37). -/
def totalCommitsOf (contributors : List Contributor) : ℕ :=
  (contributors.map Contributor.commits).sum

/-- The break condition of the loop at busfactor.ts lines 45-50:
`(cumulativeCommits / totalCommits) * 100 >= threshold`.  When
`totalCommits = 0` every commit count is 0 (they are naturals), so JavaScript
computes `0 / 0 = NaN` and `NaN >= threshold` is `false`; the `total ≠ 0`
conjunct encodes exactly that. -/
def guardReaches (total : ℕ) (threshold : ℚ) (cum : ℕ) : Prop :=
  total ≠ 0 ∧ ((cum : ℚ) / (total : ℚ)) * 100 ≥ threshold

instance (total : ℕ) (threshold : ℚ) (cum : ℕ) :
    Decidable (guardReaches total threshold cum) :=
  inferInstanceAs (Decidable (total ≠ 0 ∧ ((cum : ℚ) / (total : ℚ)) * 100 ≥ threshold))

/-- The `for (const contributor of contributors)` loop of busfactor.ts
lines 40-51: accumulate commits, count contributors, break as soon as the
cumulative percentage reaches the threshold. -/
def busFactorLoop (total : ℕ) (threshold : ℚ) :
    List Contributor → ℕ → ℕ → ℕ
  | [], _, busFactor => busFactor
  | c :: rest, cumulativeCommits, busFactor =>
    if guardReaches total threshold (cumulativeCommits + c.commits) then busFactor + 1
    else busFactorLoop total threshold rest (cumulativeCommits + c.commits) (busFactor + 1)

/-- `contributors.sort((a, b) => b.commits - a.commits)` (busfactor.ts
line 34): stable sort, descending by commit count.  Insertion sort with the
reflexive descending order is stable, like the JavaScript engine's sort. -/
def sortContributors (contributors : List Contributor) : List Contributor :=
  List.insertionSort (fun a b => b.commits ≤ a.commits) contributors

/-- The raw bus factor of busfactor.ts lines 34-51: sort, total, walk.  The
code computes the total from the (in-place sorted) array after sorting. -/
def rawBusFactor (contributors : List Contributor) (threshold : ℚ) : ℕ :=
  let sorted := sortContributors contributors
  busFactorLoop (totalCommitsOf sorted) threshold sorted 0 0

/-- The scaling chain of busfactor.ts lines 69-80. -/
def scaleBusFactor (busFactor : ℕ) : ℚ :=
  if busFactor ≤ 2 then 0
  else if busFactor ≤ 4 then 1/4
  else if busFactor ≤ 6 then 1/2
  else if busFactor ≤ 8 then 3/4
  else 1

/-- `calculateBusFactor` (busfactor.ts lines 12-89).  The DataSource call
`octokit.repos.listContributors` is passed in as `fetched`; `Except.error`
models the thrown error caught at line 56, which short-circuits to the
`{-1, -1}` sentinel.  `elapsed` is the measured `(endTime - startTime)/1000`
of the success path. -/
def calculateBusFactor (threshold : ℚ) (fetched : Except Unit (List Contributor))
    (elapsed : ℚ) : metricResult :=
  match fetched with
  | Except.error _ => { busfactor := -1, busfactory_latency := -1 }
  | Except.ok contributors =>
    { busfactor := scaleBusFactor (rawBusFactor contributors threshold),
      busfactory_latency := elapsed }

/-- The NetScore aggregation of run.ts lines 64-70: clamp each metric value
to ≥ 0, then apply the fixed weights. -/
def netscore (responsiveness correctness busfactor license rampup : ℚ) : ℚ :=
  let responsivenessNet := max responsiveness 0
  let correctnessNet := max correctness 0
  let busfactorNet := max busfactor 0
  let licenseNet := max license 0
  let rampupNet := max rampup 0
  0.40 * responsivenessNet + 0.30 * correctnessNet + 0.15 * busfactorNet +
    0.10 * rampupNet + 0.05 * licenseNet

/-- run.ts line 71: the plain, unclamped sum of the five metric latencies. -/
def netscoreLatency (responsiveness_latency correctness_latency busfactory_latency
    rampup_latency license_latency : ℚ) : ℚ :=
  responsiveness_latency + correctness_latency + busfactory_latency +
    rampup_latency + license_latency

/-- A value/latency pair as returned by any of the five evaluators. -/
structure MetricPair where
  value : ℚ
  latency : ℚ
deriving DecidableEq

/-- The five evaluator results destructured from `Promise.all` at run.ts
lines 49-61. -/
structure EvalResults where
  responsiveness : MetricPair
  correctness : MetricPair
  busfactor : MetricPair
  license : MetricPair
  rampup : MetricPair
deriving DecidableEq

/-- The NDJSON record of run.ts lines 74-88, field for field. -/
structure NetScoreRecord where
  URL : String
  NetScore : ℚ
  NetScore_Latency : ℚ
  RampUp : ℚ
  RampUp_Latency : ℚ
  Correctness : ℚ
  Correctness_Latency : ℚ
  BusFactor : ℚ
  BusFactor_Latency : ℚ
  ResponsiveMaintainer : ℚ
  ResponsiveMaintainer_Latency : ℚ
  License : ℚ
  License_Latency : ℚ
deriving DecidableEq

/-- One attempt of the regex `/github\.com\/([^\/]+)\/([^\/]+)/` (run.ts
line 104) at a fixed start position: the literal `github.com/`, then a
nonempty run of non-slash characters, a slash, and another nonempty run of
non-slash characters. -/
def tryMatchAt (cs : List Char) : Option (String × String) :=
  if cs.take 11 = "github.com/".toList then
    let after := cs.drop 11
    let owner := after.takeWhile (fun ch => ch ≠ '/')
    match owner, after.dropWhile (fun ch => ch ≠ '/') with
    | _ :: _, '/' :: rest2 =>
      match rest2.takeWhile (fun ch => ch ≠ '/') with
      | [] => none
      | r :: rs => some (String.mk owner, String.mk (r :: rs))
    | _, _ => none
  else none

/-- The regex engine's scan: try the pattern at every start position, taking
the earliest match. -/
def matchGithub : List Char → Option (String × String)
  | [] => none
  | c :: rest =>
    match tryMatchAt (c :: rest) with
    | some p => some p
    | none => matchGithub rest

/-- `extractOwnerAndRepo` (run.ts lines 103-106).  `none` stands for the
`[null, null]` result, which fails the `if (owner && repo)` test; the regex
guarantees both captures nonempty on a match. -/
def extractOwnerAndRepo (url : String) : Option (String × String) :=
  matchGithub url.toList

/-- Assembling the output record of run.ts lines 74-88 from the five
evaluator results. -/
def mkRecord (url : String) (r : EvalResults) : NetScoreRecord :=
  { URL := url,
    NetScore := netscore r.responsiveness.value r.correctness.value
      r.busfactor.value r.license.value r.rampup.value,
    NetScore_Latency := netscoreLatency r.responsiveness.latency
      r.correctness.latency r.busfactor.latency r.rampup.latency r.license.latency,
    RampUp := r.rampup.value,
    RampUp_Latency := r.rampup.latency,
    Correctness := r.correctness.value,
    Correctness_Latency := r.correctness.latency,
    BusFactor := r.busfactor.value,
    BusFactor_Latency := r.busfactor.latency,
    ResponsiveMaintainer := r.responsiveness.value,
    ResponsiveMaintainer_Latency := r.responsiveness.latency,
    License := r.license.value,
    License_Latency := r.license.latency }

/-- The body of the per-URL loop of run.ts lines 43-97.  `evaluate` is the
joint run of the five evaluators (`Promise.all`): `none` models an
unexpected exception, caught at line 90 with no record emitted; an
unparsable URL (line 94) likewise emits nothing.  Either way the loop
continues with the next URL. -/
def processLine (evaluate : String → String → Option EvalResults)
    (url : String) : List NetScoreRecord :=
  match extractOwnerAndRepo url with
  | none => []
  | some (owner, repo) =>
    match evaluate owner repo with
    | none => []
    | some r => [mkRecord url r]

/-- `processUrls` (run.ts lines 31-99) on the list of lines of the URL
file: `split('\n').filter(Boolean)` keeps the nonempty lines, then each is
processed in order. -/
def processUrls (lines : List String)
    (evaluate : String → String → Option EvalResults) : List NetScoreRecord :=
  (lines.filter (fun l => l ≠ "")).flatMap (processLine evaluate)

/-- `true` exactly when the line parses to owner/repo and the evaluators
complete without an unexpected exception, i.e. when a record is emitted. -/
def emitsRecord (evaluate : String → String → Option EvalResults)
    (url : String) : Bool :=
  ((extractOwnerAndRepo url).bind (fun p => evaluate p.1 p.2)).isSome

/-- Commits held by the first `k` contributors of a list. -/
def cumCommits (l : List Contributor) (k : ℕ) : ℕ :=
  totalCommitsOf (l.take k)

/-- The cumulative commit share (in percent) of the top `k` contributors:
the quantity the loop of busfactor.ts lines 42-51 compares with the
threshold. -/
def cumulativeShare (contributors : List Contributor) (k : ℕ) : ℚ :=
  ((cumCommits (sortContributors contributors) k : ℚ) /
    (totalCommitsOf contributors : ℚ)) * 100

/-- The even-split example of the spec: ten contributors with ten commits
each. -/
def tenEvenContributors : List Contributor :=
  [⟨"A", 10⟩, ⟨"B", 10⟩, ⟨"C", 10⟩, ⟨"D", 10⟩, ⟨"E", 10⟩,
   ⟨"F", 10⟩, ⟨"G", 10⟩, ⟨"H", 10⟩, ⟨"I", 10⟩, ⟨"J", 10⟩]

/-- A distribution whose top contributor holds 30% of 100 commits but which
needs three contributors to reach half the commits. -/
def concentratedA : List Contributor :=
  [⟨"a1", 30⟩, ⟨"a2", 19⟩, ⟨"a3", 17⟩, ⟨"a4", 17⟩, ⟨"a5", 17⟩]

/-- A distribution whose top contributor holds only 29% of 100 commits but
which reaches half the commits with two contributors. -/
def concentratedB : List Contributor :=
  [⟨"b1", 29⟩, ⟨"b2", 29⟩, ⟨"b3", 21⟩, ⟨"b4", 21⟩]

/-- A fixed successful five-evaluator outcome used as a test fixture. -/
def evalFixture : EvalResults :=
  { responsiveness := ⟨1, 1/10⟩, correctness := ⟨1, 1/10⟩, busfactor := ⟨1, 1/10⟩,
    license := ⟨1, 1/10⟩, rampup := ⟨1, 1/10⟩ }

/-- An evaluation in which the repositories of owner `cc` throw an
unexpected exception and every other repository evaluates normally. -/
def evaluateFixture : String → String → Option EvalResults :=
  fun owner _ => if owner = "cc" then none else some evalFixture

/-! ### Helper lemmas about the bus-factor loop -/

theorem totalCommitsOf_nil : totalCommitsOf [] = 0 := rfl

theorem totalCommitsOf_cons (c : Contributor) (l : List Contributor) :
    totalCommitsOf (c :: l) = c.commits + totalCommitsOf l := by
  simp [totalCommitsOf]

theorem cumCommits_one (c : Contributor) (l : List Contributor) :
    cumCommits (c :: l) 1 = c.commits := by
  simp [cumCommits, totalCommitsOf]

theorem cumCommits_succ (c : Contributor) (l : List Contributor) (k : ℕ) :
    cumCommits (c :: l) (k + 1) = c.commits + cumCommits l k := by
  simp [cumCommits, totalCommitsOf, List.take_succ_cons]

theorem busFactorLoop_nil (total : ℕ) (θ : ℚ) (cum count : ℕ) :
    busFactorLoop total θ [] cum count = count := rfl

theorem busFactorLoop_cons (total : ℕ) (θ : ℚ) (c : Contributor)
    (rest : List Contributor) (cum count : ℕ) :
    busFactorLoop total θ (c :: rest) cum count =
      if guardReaches total θ (cum + c.commits) then count + 1
      else busFactorLoop total θ rest (cum + c.commits) (count + 1) := rfl

/-- The loop visits at most every contributor once. -/
theorem busFactorLoop_le (total : ℕ) (θ : ℚ) :
    ∀ (l : List Contributor) (cum count : ℕ),
      busFactorLoop total θ l cum count ≤ count + l.length := by
  intro l
  induction l with
  | nil => intro cum count; simp [busFactorLoop_nil]
  | cons c rest ih =>
    intro cum count
    rw [busFactorLoop_cons]
    split
    · simp only [List.length_cons]; omega
    · have h := ih (cum + c.commits) (count + 1)
      simp only [List.length_cons]
      omega

/-- The loop never stops before the cumulative percentage reaches the
threshold: any position where the guard holds bounds the result. -/
theorem busFactorLoop_min (total : ℕ) (θ : ℚ) :
    ∀ (l : List Contributor) (cum count j : ℕ), 1 ≤ j → j ≤ l.length →
      guardReaches total θ (cum + cumCommits l j) →
      busFactorLoop total θ l cum count ≤ count + j := by
  intro l
  induction l with
  | nil => intro cum count j h1 h2 _; simp at h2; omega
  | cons c rest ih =>
    intro cum count j h1 h2 hg
    rw [busFactorLoop_cons]
    split
    · omega
    · rename_i hng
      obtain ⟨j', rfl⟩ : ∃ j', j = j' + 1 := ⟨j - 1, by omega⟩
      rcases Nat.eq_zero_or_pos j' with hj0 | hj1
      · subst hj0
        rw [cumCommits_one] at hg
        exact absurd hg hng
      · rw [cumCommits_succ, ← Nat.add_assoc] at hg
        have hle : j' ≤ rest.length := by
          simp only [List.length_cons] at h2; omega
        have h := ih (cum + c.commits) (count + 1) j' hj1 hle hg
        omega

/-- If the threshold is reachable somewhere in the list, the loop stops at a
position where the guard holds. -/
theorem busFactorLoop_reach (total : ℕ) (θ : ℚ) :
    ∀ (l : List Contributor) (cum count : ℕ),
      (∃ k, 1 ≤ k ∧ k ≤ l.length ∧ guardReaches total θ (cum + cumCommits l k)) →
      ∃ d, busFactorLoop total θ l cum count = count + d ∧ 1 ≤ d ∧ d ≤ l.length ∧
        guardReaches total θ (cum + cumCommits l d) := by
  intro l
  induction l with
  | nil => rintro cum count ⟨k, h1, h2, _⟩; simp at h2; omega
  | cons c rest ih =>
    rintro cum count ⟨k, hk1, hk2, hkg⟩
    rw [busFactorLoop_cons]
    by_cases hg : guardReaches total θ (cum + c.commits)
    · rw [if_pos hg]
      refine ⟨1, rfl, le_refl 1, by simp, ?_⟩
      rwa [cumCommits_one]
    · rw [if_neg hg]
      obtain ⟨k', rfl⟩ : ∃ k', k = k' + 1 := ⟨k - 1, by omega⟩
      rcases Nat.eq_zero_or_pos k' with hk0 | hkpos
      · subst hk0; rw [cumCommits_one] at hkg; exact absurd hkg hg
      · rw [cumCommits_succ, ← Nat.add_assoc] at hkg
        have hk2' : k' ≤ rest.length := by
          simp only [List.length_cons] at hk2; omega
        obtain ⟨d, hd, hd1, hd2, hdg⟩ :=
          ih (cum + c.commits) (count + 1) ⟨k', hkpos, hk2', hkg⟩
        refine ⟨d + 1, ?_, by omega, ?_, ?_⟩
        · rw [hd]; omega
        · simp only [List.length_cons]; omega
        · rw [cumCommits_succ, ← Nat.add_assoc]; exact hdg

/-- With a zero total every guard is false (`NaN >= threshold` in
JavaScript), so the loop runs through the whole list. -/
theorem busFactorLoop_zero_total (θ : ℚ) :
    ∀ (l : List Contributor) (cum count : ℕ),
      busFactorLoop 0 θ l cum count = count + l.length := by
  intro l
  induction l with
  | nil => intro cum count; simp [busFactorLoop_nil]
  | cons c rest ih =>
    intro cum count
    rw [busFactorLoop_cons, if_neg (by simp [guardReaches])]
    rw [ih]
    simp only [List.length_cons]
    omega

theorem sortContributors_perm (l : List Contributor) :
    (sortContributors l).Perm l :=
  List.perm_insertionSort _ l

theorem totalCommitsOf_sort (l : List Contributor) :
    totalCommitsOf (sortContributors l) = totalCommitsOf l :=
  ((sortContributors_perm l).map Contributor.commits).sum_eq

theorem length_sort (l : List Contributor) :
    (sortContributors l).length = l.length :=
  (sortContributors_perm l).length_eq

/-- The values `scaleBusFactor` can take. -/
theorem scaleBusFactor_mem (n : ℕ) :
    scaleBusFactor n = 0 ∨ scaleBusFactor n = 1/4 ∨ scaleBusFactor n = 1/2 ∨
      scaleBusFactor n = 3/4 ∨ scaleBusFactor n = 1 := by
  unfold scaleBusFactor
  split_ifs <;> norm_num

/-- The raw bus factor is the least positive count of top contributors whose
cumulative share reaches the threshold, provided the threshold does not
exceed 100 (the share of the whole list). -/
theorem rawBusFactor_spec (contributors : List Contributor) (θ : ℚ)
    (hne : contributors ≠ []) (hpos : 0 < totalCommitsOf contributors)
    (hθ : θ ≤ 100) :
    1 ≤ rawBusFactor contributors θ ∧
    θ ≤ cumulativeShare contributors (rawBusFactor contributors θ) ∧
    ∀ k, 1 ≤ k → θ ≤ cumulativeShare contributors k →
      rawBusFactor contributors θ ≤ k := by
  have htot : totalCommitsOf (sortContributors contributors) = totalCommitsOf contributors :=
    totalCommitsOf_sort contributors
  have hlen : (sortContributors contributors).length = contributors.length :=
    length_sort contributors
  have hslen : 1 ≤ (sortContributors contributors).length := by
    rw [hlen]
    exact List.length_pos.mpr hne
  have hcast : (totalCommitsOf contributors : ℚ) ≠ 0 := by
    exact_mod_cast Nat.pos_iff_ne_zero.mp hpos
  have hfull : cumCommits (sortContributors contributors)
      (sortContributors contributors).length = totalCommitsOf contributors := by
    unfold cumCommits
    rw [List.take_length, htot]
  have hraw : rawBusFactor contributors θ =
      busFactorLoop (totalCommitsOf contributors) θ (sortContributors contributors) 0 0 := by
    show busFactorLoop (totalCommitsOf (sortContributors contributors)) θ
      (sortContributors contributors) 0 0 =
      busFactorLoop (totalCommitsOf contributors) θ (sortContributors contributors) 0 0
    rw [htot]
  have hg : guardReaches (totalCommitsOf contributors) θ
      (0 + cumCommits (sortContributors contributors) (sortContributors contributors).length) := by
    refine ⟨Nat.pos_iff_ne_zero.mp hpos, ?_⟩
    rw [Nat.zero_add, hfull, div_self hcast, one_mul]
    exact hθ
  obtain ⟨d, hd, hd1, hdlen, hdg⟩ :=
    busFactorLoop_reach (totalCommitsOf contributors) θ (sortContributors contributors) 0 0
      ⟨(sortContributors contributors).length, hslen, le_refl _, hg⟩
  rw [Nat.zero_add] at hd
  rw [hraw, hd]
  refine ⟨hd1, ?_, ?_⟩
  · rw [Nat.zero_add] at hdg
    exact hdg.2
  · intro k hk1 hkshare
    by_cases hkl : k ≤ (sortContributors contributors).length
    · have hgk : guardReaches (totalCommitsOf contributors) θ
          (0 + cumCommits (sortContributors contributors) k) := by
        refine ⟨Nat.pos_iff_ne_zero.mp hpos, ?_⟩
        rw [Nat.zero_add]
        exact hkshare
      have := busFactorLoop_min (totalCommitsOf contributors) θ
        (sortContributors contributors) 0 0 k hk1 hkl hgk
      omega
    · omega

/-! ### Helper lemmas about the batch runner -/

/-- A line yields one record when it parses and evaluation completes, and no
record otherwise. -/
theorem processLine_length (evaluate : String → String → Option EvalResults)
    (url : String) :
    (processLine evaluate url).length =
      if emitsRecord evaluate url then 1 else 0 := by
  unfold processLine emitsRecord
  cases hx : extractOwnerAndRepo url with
  | none => simp
  | some p =>
    obtain ⟨o, r⟩ := p
    cases he : evaluate o r with
    | none => simp [Option.bind, he]
    | some res => simp [Option.bind, he]

/-- Record count over any list of already-filtered lines. -/
theorem flatMap_processLine_length (evaluate : String → String → Option EvalResults) :
    ∀ L : List String,
      (L.flatMap (processLine evaluate)).length = L.countP (emitsRecord evaluate) := by
  intro L
  induction L with
  | nil => rfl
  | cons u rest ih =>
    rw [List.flatMap_cons, List.length_append, processLine_length, ih, List.countP_cons]
    by_cases h : emitsRecord evaluate u <;> simp [h, Nat.add_comm]

/-! ### Claim theorems -/

/-- C1: when all five evaluators succeed with values in [0,1], the NetScore
equals 0.40·responsiveness + 0.30·correctness + 0.15·busFactor +
0.10·rampUp + 0.05·license applied to the clamped values (which coincide
with the values themselves), and it lies in [0,1]. -/
theorem netscore_weighted_sum (responsiveness correctness busfactor license rampup : ℚ)
    (h1 : 0 ≤ responsiveness) (h1' : responsiveness ≤ 1)
    (h2 : 0 ≤ correctness) (h2' : correctness ≤ 1)
    (h3 : 0 ≤ busfactor) (h3' : busfactor ≤ 1)
    (h4 : 0 ≤ license) (h4' : license ≤ 1)
    (h5 : 0 ≤ rampup) (h5' : rampup ≤ 1) :
    netscore responsiveness correctness busfactor license rampup =
      0.40 * responsiveness + 0.30 * correctness + 0.15 * busfactor +
        0.10 * rampup + 0.05 * license ∧
    0 ≤ netscore responsiveness correctness busfactor license rampup ∧
    netscore responsiveness correctness busfactor license rampup ≤ 1 := by
  have e : netscore responsiveness correctness busfactor license rampup =
      0.40 * responsiveness + 0.30 * correctness + 0.15 * busfactor +
        0.10 * rampup + 0.05 * license := by
    simp only [netscore]
    rw [max_eq_left h1, max_eq_left h2, max_eq_left h3, max_eq_left h4, max_eq_left h5]
  refine ⟨e, ?_, ?_⟩ <;> rw [e]
  · nlinarith
  · nlinarith

/-- Witness for C1 at a concrete successful outcome. -/
theorem netscore_weighted_sum_witness :
    0 ≤ netscore 1 (1/2) 0 1 (1/4) ∧ netscore 1 (1/2) 0 1 (1/4) ≤ 1 :=
  ⟨(netscore_weighted_sum 1 (1/2) 0 1 (1/4) (by norm_num) (by norm_num) (by norm_num)
      (by norm_num) (by norm_num) (by norm_num) (by norm_num) (by norm_num)
      (by norm_num) (by norm_num)).2.1,
   (netscore_weighted_sum 1 (1/2) 0 1 (1/4) (by norm_num) (by norm_num) (by norm_num)
      (by norm_num) (by norm_num) (by norm_num) (by norm_num) (by norm_num)
      (by norm_num) (by norm_num)).2.2⟩

/-- C2: when the DataSource raises, `calculateBusFactor` returns the paired
sentinel `{value: -1, latency: -1}`; on every input the value is -1 exactly
when the latency is -1, so a failed value never comes with a real latency
and a real value never comes with latency -1. -/
theorem calculateBusFactor_failure_pairing (θ elapsed : ℚ) (helapsed : 0 ≤ elapsed) :
    calculateBusFactor θ (Except.error ()) elapsed =
      { busfactor := -1, busfactory_latency := -1 } ∧
    ∀ fetched : Except Unit (List Contributor),
      ((calculateBusFactor θ fetched elapsed).busfactor = -1 ↔
        (calculateBusFactor θ fetched elapsed).busfactory_latency = -1) := by
  refine ⟨rfl, ?_⟩
  intro fetched
  cases fetched with
  | error e => simp [calculateBusFactor]
  | ok contributors =>
    simp only [calculateBusFactor]
    constructor
    · intro hv
      exfalso
      rcases scaleBusFactor_mem (rawBusFactor contributors θ) with h | h | h | h | h <;>
        rw [h] at hv <;> norm_num at hv
    · intro hl
      exfalso
      simp only at hl
      rw [hl] at helapsed
      norm_num at helapsed

/-- Witness for C2 at a concrete failing fetch. -/
theorem calculateBusFactor_failure_pairing_witness :
    calculateBusFactor 50 (Except.error ()) 0 =
      { busfactor := -1, busfactory_latency := -1 } :=
  (calculateBusFactor_failure_pairing 50 0 (le_refl 0)).1

/-- C3 (amended): for thresholds that do not exceed 100, the raw bus factor
is the least positive count of top contributors whose cumulative commit
share reaches the threshold; and for the even ten-way split at threshold 50
the raw bus factor is 5 and the scaled score 0.5. -/
theorem rawBusFactor_least_reaching (contributors : List Contributor) (θ : ℚ)
    (hne : contributors ≠ []) (hpos : 0 < totalCommitsOf contributors)
    (hθ : θ ≤ 100) :
    (1 ≤ rawBusFactor contributors θ ∧
      θ ≤ cumulativeShare contributors (rawBusFactor contributors θ) ∧
      ∀ k, 1 ≤ k → θ ≤ cumulativeShare contributors k →
        rawBusFactor contributors θ ≤ k) ∧
    (rawBusFactor tenEvenContributors 50 = 5 ∧
      scaleBusFactor (rawBusFactor tenEvenContributors 50) = 1/2) := by
  refine ⟨rawBusFactor_spec contributors θ hne hpos hθ, ?_, ?_⟩
  · norm_num [tenEvenContributors, rawBusFactor, sortContributors, List.insertionSort,
      List.orderedInsert, busFactorLoop, guardReaches, totalCommitsOf]
  · have h5 : rawBusFactor tenEvenContributors 50 = 5 := by
      norm_num [tenEvenContributors, rawBusFactor, sortContributors, List.insertionSort,
        List.orderedInsert, busFactorLoop, guardReaches, totalCommitsOf]
    rw [h5]
    norm_num [scaleBusFactor]

/-- Counterexample to C3 as stated: with a single contributor of 10 commits
and threshold 150 the loop falls off the end and reports raw bus factor 1,
although the top contributor's share, 100, never reaches 150 — no count
whatsoever has share ≥ 150, so the raw value is not "the smallest such k". -/
theorem rawBusFactor_least_reaching_cex :
    rawBusFactor [⟨"A", 10⟩] 150 = 1 ∧
    ¬ ((150 : ℚ) ≤ cumulativeShare [⟨"A", 10⟩] 1) ∧
    0 < totalCommitsOf [⟨"A", 10⟩] ∧ ([⟨"A", 10⟩] : List Contributor) ≠ [] := by
  refine ⟨?_, ?_, by norm_num [totalCommitsOf], by simp⟩
  · norm_num [rawBusFactor, sortContributors, List.insertionSort, List.orderedInsert,
      busFactorLoop, guardReaches, totalCommitsOf]
  · norm_num [cumulativeShare, cumCommits, totalCommitsOf, sortContributors,
      List.insertionSort, List.orderedInsert]

/-- Witness for C3 at the even ten-way split with threshold 50. -/
theorem rawBusFactor_least_reaching_witness :
    1 ≤ rawBusFactor tenEvenContributors 50 ∧
    (50 : ℚ) ≤ cumulativeShare tenEvenContributors (rawBusFactor tenEvenContributors 50) :=
  ⟨(rawBusFactor_least_reaching tenEvenContributors 50 (by simp [tenEvenContributors])
      (by norm_num [tenEvenContributors, totalCommitsOf]) (by norm_num)).1.1,
   (rawBusFactor_least_reaching tenEvenContributors 50 (by simp [tenEvenContributors])
      (by norm_num [tenEvenContributors, totalCommitsOf]) (by norm_num)).1.2.1⟩

/-- C4 (amended): a contributor list with zero total commits does not make
`calculateBusFactor` fail — JavaScript evaluates `0/0` to `NaN`, every
threshold comparison is false, the loop runs through all contributors, and
the function returns the scaled value for the full contributor count
together with the real elapsed time, not the `{-1, -1}` sentinel. -/
theorem calculateBusFactor_zero_total (contributors : List Contributor)
    (θ elapsed : ℚ) (h : totalCommitsOf contributors = 0) :
    calculateBusFactor θ (Except.ok contributors) elapsed =
      { busfactor := scaleBusFactor contributors.length,
        busfactory_latency := elapsed } := by
  have hs : totalCommitsOf (sortContributors contributors) = 0 := by
    rw [totalCommitsOf_sort]; exact h
  have hraw : rawBusFactor contributors θ = contributors.length := by
    show busFactorLoop (totalCommitsOf (sortContributors contributors)) θ
      (sortContributors contributors) 0 0 = contributors.length
    rw [hs, busFactorLoop_zero_total, Nat.zero_add, length_sort]
  simp [calculateBusFactor, hraw]

/-- Counterexample to C4 as stated: a one-contributor list with zero
commits has total 0, yet `calculateBusFactor` returns a success result
(value 0, real latency), not the `{-1, -1}` sentinel. -/
theorem calculateBusFactor_zero_total_cex :
    totalCommitsOf [⟨"A", 0⟩] = 0 ∧
    calculateBusFactor 50 (Except.ok [⟨"A", 0⟩]) (1/100) ≠
      { busfactor := -1, busfactory_latency := -1 } ∧
    calculateBusFactor 50 (Except.ok [⟨"A", 0⟩]) (1/100) =
      { busfactor := 0, busfactory_latency := 1/100 } := by
  refine ⟨rfl, ?_, rfl⟩
  intro hcontra
  have : (0 : ℚ) = -1 := congrArg metricResult.busfactor hcontra
  norm_num at this

/-- Witness for C4 (amended) at the same zero-commit list. -/
theorem calculateBusFactor_zero_total_witness :
    calculateBusFactor 50 (Except.ok [⟨"A", 0⟩]) 0 =
      { busfactor := scaleBusFactor ([(⟨"A", 0⟩ : Contributor)] : List Contributor).length,
        busfactory_latency := 0 } :=
  calculateBusFactor_zero_total [⟨"A", 0⟩] 50 0 rfl

/-- C5: the emitted NetScore_Latency is the plain, unclamped sum of the five
metric latencies, and a failed metric's -1 flows into it, so a mostly-fast
batch with one failure reports a negative total latency. -/
theorem netscoreLatency_plain_sum :
    (∀ url : String, ∀ r : EvalResults,
      (mkRecord url r).NetScore_Latency =
        r.responsiveness.latency + r.correctness.latency + r.busfactor.latency +
          r.rampup.latency + r.license.latency) ∧
    netscoreLatency (1/10) (1/10)
      ((calculateBusFactor 50 (Except.error ()) (1/10)).busfactory_latency)
      (1/10) (1/10) < 0 := by
  constructor
  · intro url r
    simp [mkRecord, netscoreLatency]
  · norm_num [calculateBusFactor, netscoreLatency]

/-- C6: the scaling function is exactly the step table raw ≤ 2 ↦ 0,
raw ≤ 4 ↦ 0.25, raw ≤ 6 ↦ 0.5, raw ≤ 8 ↦ 0.75, raw > 8 ↦ 1, and it is
non-decreasing in the raw value. -/
theorem scaleBusFactor_step_table :
    (∀ r : ℕ, r ≤ 2 → scaleBusFactor r = 0) ∧
    (∀ r : ℕ, 2 < r → r ≤ 4 → scaleBusFactor r = 1/4) ∧
    (∀ r : ℕ, 4 < r → r ≤ 6 → scaleBusFactor r = 1/2) ∧
    (∀ r : ℕ, 6 < r → r ≤ 8 → scaleBusFactor r = 3/4) ∧
    (∀ r : ℕ, 8 < r → scaleBusFactor r = 1) ∧
    (∀ a b : ℕ, a ≤ b → scaleBusFactor a ≤ scaleBusFactor b) := by
  refine ⟨?_, ?_, ?_, ?_, ?_, ?_⟩
  · intro r h
    unfold scaleBusFactor
    rw [if_pos (by omega)]
  · intro r h h'
    unfold scaleBusFactor
    split_ifs <;> try (exfalso; omega)
    all_goals norm_num
  · intro r h h'
    unfold scaleBusFactor
    split_ifs <;> try (exfalso; omega)
    all_goals norm_num
  · intro r h h'
    unfold scaleBusFactor
    split_ifs <;> try (exfalso; omega)
    all_goals norm_num
  · intro r h
    unfold scaleBusFactor
    split_ifs <;> try (exfalso; omega)
    all_goals norm_num
  · intro a b hab
    unfold scaleBusFactor
    split_ifs <;> try (exfalso; omega)
    all_goals norm_num

/-- Witness for C6: a value from each bucket and one monotone comparison. -/
theorem scaleBusFactor_step_table_witness :
    scaleBusFactor 1 = 0 ∧ scaleBusFactor 3 = 1/4 ∧ scaleBusFactor 5 = 1/2 ∧
    scaleBusFactor 7 = 3/4 ∧ scaleBusFactor 9 = 1 ∧
    scaleBusFactor 2 ≤ scaleBusFactor 10 :=
  ⟨scaleBusFactor_step_table.1 1 (by norm_num),
   scaleBusFactor_step_table.2.1 3 (by norm_num) (by norm_num),
   scaleBusFactor_step_table.2.2.1 5 (by norm_num) (by norm_num),
   scaleBusFactor_step_table.2.2.2.1 7 (by norm_num) (by norm_num),
   scaleBusFactor_step_table.2.2.2.2.1 9 (by norm_num),
   scaleBusFactor_step_table.2.2.2.2.2 2 10 (by norm_num)⟩

/-- C7 (amended): if every top-k cumulative share of A is at least the
corresponding top-k share of B — not merely the top contributor's share —
then A's raw bus factor is at most B's, for thresholds up to 100. -/
theorem rawBusFactor_share_dominance (A B : List Contributor) (θ : ℚ)
    (hA : A ≠ []) (hB : B ≠ []) (hposA : 0 < totalCommitsOf A)
    (hposB : 0 < totalCommitsOf B) (hθ : θ ≤ 100)
    (hdom : ∀ k, 1 ≤ k → cumulativeShare B k ≤ cumulativeShare A k) :
    rawBusFactor A θ ≤ rawBusFactor B θ := by
  obtain ⟨hB1, hBreach, -⟩ := rawBusFactor_spec B θ hB hposB hθ
  obtain ⟨-, -, hAmin⟩ := rawBusFactor_spec A θ hA hposA hθ
  exact hAmin _ hB1 (le_trans hBreach (hdom _ hB1))

/-- Counterexample to C7 as stated: distribution A's top contributor holds
30% (more than B's 29%), yet A's raw bus factor at threshold 50 is 3 while
B's is 2 — top-share concentration alone does not bound the count. -/
theorem rawBusFactor_share_dominance_cex :
    cumulativeShare concentratedB 1 < cumulativeShare concentratedA 1 ∧
    concentratedA ≠ [] ∧ concentratedB ≠ [] ∧
    0 < totalCommitsOf concentratedA ∧ 0 < totalCommitsOf concentratedB ∧
    ¬ (rawBusFactor concentratedA 50 ≤ rawBusFactor concentratedB 50) := by
  have hA : rawBusFactor concentratedA 50 = 3 := by
    norm_num [concentratedA, rawBusFactor, sortContributors, List.insertionSort,
      List.orderedInsert, busFactorLoop, guardReaches, totalCommitsOf]
  have hB : rawBusFactor concentratedB 50 = 2 := by
    norm_num [concentratedB, rawBusFactor, sortContributors, List.insertionSort,
      List.orderedInsert, busFactorLoop, guardReaches, totalCommitsOf]
  refine ⟨?_, by simp [concentratedA], by simp [concentratedB],
    by norm_num [concentratedA, totalCommitsOf],
    by norm_num [concentratedB, totalCommitsOf], ?_⟩
  · norm_num [concentratedA, concentratedB, cumulativeShare, cumCommits, totalCommitsOf,
      sortContributors, List.insertionSort, List.orderedInsert]
  · rw [hA, hB]
    omega

/-- Witness for C7 (amended): the even split dominates itself, so the bound
holds reflexively there. -/
theorem rawBusFactor_share_dominance_witness :
    rawBusFactor tenEvenContributors 50 ≤ rawBusFactor tenEvenContributors 50 :=
  rawBusFactor_share_dominance tenEvenContributors tenEvenContributors 50
    (by simp [tenEvenContributors]) (by simp [tenEvenContributors])
    (by norm_num [tenEvenContributors, totalCommitsOf])
    (by norm_num [tenEvenContributors, totalCommitsOf]) (by norm_num)
    (fun k _ => le_refl _)

/-- C9: an empty contributor list fetched without error yields a success
result — raw bus factor 0 falls in the lowest bucket, so the value is 0 and
the latency is the real, nonnegative elapsed time. -/
theorem calculateBusFactor_empty_contributors (θ elapsed : ℚ)
    (helapsed : 0 ≤ elapsed) :
    calculateBusFactor θ (Except.ok []) elapsed =
      { busfactor := 0, busfactory_latency := elapsed } ∧
    (calculateBusFactor θ (Except.ok []) elapsed).busfactor ≠ -1 ∧
    0 ≤ (calculateBusFactor θ (Except.ok []) elapsed).busfactory_latency := by
  have he : calculateBusFactor θ (Except.ok ([] : List Contributor)) elapsed =
      { busfactor := 0, busfactory_latency := elapsed } := rfl
  refine ⟨he, ?_, ?_⟩
  · rw [he]
    norm_num
  · rw [he]
    exact helapsed

/-- Witness for C9 at elapsed time 0. -/
theorem calculateBusFactor_empty_contributors_witness :
    calculateBusFactor 50 (Except.ok []) 0 =
      { busfactor := 0, busfactory_latency := 0 } :=
  (calculateBusFactor_empty_contributors 50 0 (le_refl 0)).1

/-- C10: every result of `calculateBusFactor` is either the `{-1, -1}`
failure sentinel or has its value at one of the five step levels
0, 0.25, 0.5, 0.75, 1 with a nonnegative latency. -/
theorem calculateBusFactor_result_range (θ elapsed : ℚ)
    (fetched : Except Unit (List Contributor)) (helapsed : 0 ≤ elapsed) :
    calculateBusFactor θ fetched elapsed =
      { busfactor := -1, busfactory_latency := -1 } ∨
    (((calculateBusFactor θ fetched elapsed).busfactor = 0 ∨
      (calculateBusFactor θ fetched elapsed).busfactor = 1/4 ∨
      (calculateBusFactor θ fetched elapsed).busfactor = 1/2 ∨
      (calculateBusFactor θ fetched elapsed).busfactor = 3/4 ∨
      (calculateBusFactor θ fetched elapsed).busfactor = 1) ∧
      0 ≤ (calculateBusFactor θ fetched elapsed).busfactory_latency) := by
  cases fetched with
  | error e => left; rfl
  | ok contributors =>
    right
    exact ⟨scaleBusFactor_mem (rawBusFactor contributors θ), helapsed⟩

/-- Witness for C10 at a failing fetch with elapsed time 0. -/
theorem calculateBusFactor_result_range_witness :
    calculateBusFactor 50 (Except.error ()) 0 =
      { busfactor := -1, busfactory_latency := -1 } ∨
    (((calculateBusFactor 50 (Except.error ()) 0).busfactor = 0 ∨
      (calculateBusFactor 50 (Except.error ()) 0).busfactor = 1/4 ∨
      (calculateBusFactor 50 (Except.error ()) 0).busfactor = 1/2 ∨
      (calculateBusFactor 50 (Except.error ()) 0).busfactor = 3/4 ∨
      (calculateBusFactor 50 (Except.error ()) 0).busfactor = 1) ∧
      0 ≤ (calculateBusFactor 50 (Except.error ()) 0).busfactory_latency) :=
  calculateBusFactor_result_range 50 0 (Except.error ()) (le_refl 0)

/-- C8: the batch runner emits exactly one record per nonempty line that
parses to owner/repo and evaluates without an unexpected exception; a
malformed line, or a line whose evaluation throws, contributes no record and
leaves the rest of the batch untouched; in particular a batch of N parsing
lines with exactly one throwing line emits N−1 records. -/
theorem processUrls_record_per_line (lines : List String)
    (evaluate : String → String → Option EvalResults) :
    ((processUrls lines evaluate).length =
      (lines.filter (fun l => l ≠ "")).countP (emitsRecord evaluate)) ∧
    (∀ bad rest, extractOwnerAndRepo bad = none →
      processUrls (bad :: rest) evaluate = processUrls rest evaluate) ∧
    (∀ bad rest p, extractOwnerAndRepo bad = some p → evaluate p.1 p.2 = none →
      processUrls (bad :: rest) evaluate = processUrls rest evaluate) ∧
    ((∀ l ∈ lines, l ≠ "" ∧ (extractOwnerAndRepo l).isSome = true) →
      lines.countP (fun u => !(emitsRecord evaluate u)) = 1 →
      (processUrls lines evaluate).length = lines.length - 1) := by
  have hlen : ∀ ls : List String, (processUrls ls evaluate).length =
      (ls.filter (fun l => l ≠ "")).countP (emitsRecord evaluate) := by
    intro ls
    unfold processUrls
    exact flatMap_processLine_length evaluate _
  refine ⟨hlen lines, ?_, ?_, ?_⟩
  · intro bad rest hbad
    unfold processUrls
    by_cases hbe : bad = ""
    · subst hbe
      simp [List.filter_cons]
    · rw [List.filter_cons, if_pos (by simpa using hbe), List.flatMap_cons]
      have : processLine evaluate bad = [] := by
        unfold processLine
        rw [hbad]
      rw [this, List.nil_append]
  · intro bad rest p hbad heval
    unfold processUrls
    by_cases hbe : bad = ""
    · subst hbe
      simp [List.filter_cons]
    · rw [List.filter_cons, if_pos (by simpa using hbe), List.flatMap_cons]
      have : processLine evaluate bad = [] := by
        obtain ⟨o, r⟩ := p
        simp only at heval
        simp [processLine, hbad, heval]
      rw [this, List.nil_append]
  · intro hall hone
    rw [hlen lines]
    have hfilter : lines.filter (fun l => l ≠ "") = lines := by
      rw [List.filter_eq_self]
      intro a ha
      simpa using (hall a ha).1
    rw [hfilter]
    have hsplit := List.length_eq_countP_add_countP (emitsRecord evaluate) lines
    have hone' : lines.countP (fun u => decide ¬ emitsRecord evaluate u = true) = 1 := by
      have : (fun u => !(emitsRecord evaluate u)) =
          (fun u => decide ¬ emitsRecord evaluate u = true) := by
        funext u
        cases h : emitsRecord evaluate u <;> simp [h]
      rwa [this] at hone
    omega

/-- Witness for C8: a two-line batch whose second repository throws an
unexpected exception emits exactly one record. -/
theorem processUrls_record_per_line_witness :
    (processUrls ["https://github.com/aa/bb", "https://github.com/cc/dd"]
      evaluateFixture).length =
      (["https://github.com/aa/bb", "https://github.com/cc/dd"] : List String).length - 1 :=
  (processUrls_record_per_line ["https://github.com/aa/bb", "https://github.com/cc/dd"]
    evaluateFixture).2.2.2 (by decide) (by decide)

end Spec2Proof
